import Mathlib

/-!
# Verification of the stator subscription/selection core

Shallow embedding of the repository's source (`src/src/stator.ts`, the current
implementation, and `src/main.ts`, the legacy variant) together with proofs of
the specification claims about it.

JavaScript values are modelled by the inductive `JSVal`. Object identity
("reference") is modelled by a numeric id carried on every heap-allocated value
(array, plain object / class instance, function); `Object.is` compares ids for
heap values and contents for primitives. Numbers are modelled as integers, so
the `NaN` / `-0` corner where `===` and `Object.is` differ does not arise and a
single `objectIs` serves for both. Class instances such as `Map`, `Set` or
`Date` are modelled as `record` values whose `ctor` names their constructor and
whose `fields` are their *own enumerable properties* (empty for `Map`/`Set`/
`Date`, whose data lives in internal slots).
-/

/-- A JavaScript value. Heap values carry a reference id. -/
inductive JSVal : Type where
  /-- `undefined` -/
  | undef : JSVal
  /-- `null` -/
  | jsnull : JSVal
  | bool (b : Bool) : JSVal
  | num (n : Int) : JSVal
  | str (s : String) : JSVal
  /-- An array with reference id `id` and elements `elems`. -/
  | arr (id : Nat) (elems : List JSVal) : JSVal
  /-- A non-array object: reference id, constructor name, own enumerable
  properties. A plain record has `ctor = "Object"`. -/
  | record (id : Nat) (ctor : String) (fields : List (String × JSVal)) : JSVal
  /-- A function value (its body is irrelevant to the equality code). -/
  | fn (id : Nat) : JSVal

namespace Stator

open JSVal

/-- `Object.is` (and, over this value domain, also `===`): primitives compare
by content, heap values by reference id. -/
def objectIs : JSVal → JSVal → Bool
  | JSVal.undef, JSVal.undef => true
  | .jsnull, .jsnull => true
  | .bool a, .bool b => a == b
  | .num a, .num b => a == b
  | .str a, .str b => a == b
  | .arr i _, .arr j _ => i == j
  | .record i _ _, .record j _ _ => i == j
  | .fn i, .fn j => i == j
  | _, _ => false

/-- `typeof` -/
def typeOf : JSVal → String
  | JSVal.undef => "undefined"
  | .jsnull => "object"
  | .bool _ => "boolean"
  | .num _ => "number"
  | .str _ => "string"
  | .arr _ _ => "object"
  | .record _ _ _ => "object"
  | .fn _ => "function"

/-- `typeof v === "object" && v !== null` (functions have typeof "function"). -/
def isObjectNonNull : JSVal → Bool
  | .arr _ _ => true
  | .record _ _ _ => true
  | _ => false

/-- `Array.isArray` -/
def isArrayV : JSVal → Bool
  | .arr _ _ => true
  | _ => false

/-- The `.constructor` of a heap value (unused for primitives, which never
reach the constructor comparison in the source). -/
def ctorOf : JSVal → String
  | .arr _ _ => "Array"
  | .record _ c _ => c
  | .fn _ => "Function"
  | _ => ""

/-- Own enumerable properties, as `Object.keys` enumerates them: index keys
for arrays, declared fields for objects, none for functions/primitives. -/
def fieldsOf : JSVal → List (String × JSVal)
  | .arr _ es => (es.enum).map (fun p => (toString p.1, p.2))
  | .record _ _ fs => fs
  | _ => []

/-- `Object.keys` -/
def keysOf (v : JSVal) : List String := (fieldsOf v).map Prod.fst

/-- `Object.prototype.hasOwnProperty.call(v, k)` -/
def hasOwnK (v : JSVal) (k : String) : Bool := (keysOf v).contains k

/-- Property read `v[k]`, `undefined` when absent (the source only reads keys
it has already checked with `hasOwnProperty`). -/
def getField (v : JSVal) (k : String) : JSVal :=
  ((fieldsOf v).lookup k).getD JSVal.undef

/-- `_equals` from `src/src/stator.ts` (lines 166-206): shallow `Object.is`
comparison. Reference equality first; non-objects and null fail; arrays are
compared by length and pairwise `Object.is` on elements; otherwise the
constructors must match and the own enumerable keys are compared pairwise by
`Object.is` on their values. -/
def _equals (a b : JSVal) : Bool :=
  -- Exact match
  if objectIs a b then true
  -- Either not an object or null
  else if !(isObjectNonNull a) || !(isObjectNonNull b) then false
  -- Shallow array compare
  else if isArrayV a then
    match a, b with
    | .arr _ ea, .arr _ eb =>
      if ea.length ≠ eb.length then false
      else (ea.zip eb).all fun p => objectIs p.1 p.2
    | _, _ => false
  -- Bail out on different constructors
  else if ctorOf a ≠ ctorOf b then false
  -- Shallow object compare
  else
    let ka := keysOf a
    let kb := keysOf b
    if ka.length ≠ kb.length then false
    else ka.all fun k => hasOwnK b k && objectIs (getField a k) (getField b k)

/-- The subscriber's cache `snapshotRef.current`: the last root snapshot seen
and the last projection delivered (`{ root, selected }`). -/
structure SnapCache : Type where
  root : JSVal
  selected : JSVal

/-- `getSnapshot` from `src/src/stator.ts` (lines 134-155), instrumented with
the number of selector invocations it performs (third component; the source
calls `select` in exactly one place). Returns the value delivered to the
subscriber and the updated cache. With no selector the current root snapshot
is returned unchanged; otherwise a reference-equal root is a cache hit, and a
recomputed projection that the equality check reports equal to the previously
delivered one yields the old reference back. -/
def getSnapshot (root : JSVal) (select : Option (JSVal → JSVal))
    (prev : Option SnapCache) : JSVal × Option SnapCache × Nat :=
  match select with
  | none => (root, prev, 0)
  | some sel =>
    match prev with
    | some p =>
      if objectIs p.root root then
        (p.selected, some p, 0)
      else
        let selected := sel root
        -- If the selected values are equal, return the old reference.
        if _equals selected p.selected then
          (p.selected, some ⟨root, p.selected⟩, 1)
        -- Otherwise, cache and return the new reference.
        else
          (selected, some ⟨root, selected⟩, 1)
    | none =>
      let selected := sel root
      (selected, some ⟨root, selected⟩, 1)

/-- One subscriber across a sequence of published snapshots: fold
`getSnapshot` over the roots, collecting the value delivered after each
notification. -/
def subRun (select : Option (JSVal → JSVal)) :
    Option SnapCache → List JSVal → List JSVal
  | _, [] => []
  | cache, r :: rs =>
    let res := getSnapshot r select cache
    res.1 :: subRun select res.2.1 rs

/-- The `Store` class from `src/src/stator.ts` (lines 51-73): the current
snapshot plus the registered listener callbacks. JavaScript's insertion-ordered
`Set` of listener closures is modelled as a duplicate-free list of listener
ids. -/
structure Store (V : Type) : Type where
  value : V
  listeners : List Nat

variable {V : Type}

/-- `Store.update`: overwrite the current snapshot. -/
def Store.update (s : Store V) (v : V) : Store V := { s with value := v }

/-- `Store.get`: read the current snapshot. -/
def Store.get (s : Store V) : V := s.value

/-- `Store.subscribe`: `Set.add` keeps the set unchanged when the listener is
already present, otherwise appends it. -/
def Store.subscribe (s : Store V) (l : Nat) : Store V :=
  if l ∈ s.listeners then s else { s with listeners := s.listeners ++ [l] }

/-- The closure returned by `Store.subscribe`: `Set.delete` removes the
listener if present and is a no-op otherwise (it never throws; the boolean it
returns is discarded by every caller). -/
def Store.unsubscribe (s : Store V) (l : Nat) : Store V :=
  { s with listeners := s.listeners.filter (fun x => x != l) }

/-- `Store.notify` runs every registered listener; a listener that reads the
snapshot during notification observes `Store.get` of the store at that moment.
Each entry pairs a listener id with the snapshot it observes. -/
def Store.notifyReads (s : Store V) : List (Nat × V) :=
  s.listeners.map (fun l => (l, s.get))

/-- One re-evaluation of `Provider` from `src/src/stator.ts` (lines 103-121)
on an already-mounted store: the render pass calls `storeRef.current.update
(value)` and only afterwards does the layout effect call `notify()`, so the
listeners run against the already-updated store. -/
def providerReevaluate (s : Store V) (v : V) : Store V × List (Nat × V) :=
  let updated := s.update v
  (updated, updated.notifyReads)

/-- Entry of `useStore` from `src/src/stator.ts` (lines 123-158). The `EMPTY`
context marker is `none`; with a provider in scope the context holds the
store and the hook reads the snapshot through `getSnapshot`. -/
def useStoreStator (ctx : Option (Store JSVal)) (select : Option (JSVal → JSVal))
    (cache : Option SnapCache) : Except String (JSVal × Option SnapCache × Nat) :=
  match ctx with
  | none => .error "Component must be wrapped with a store <Provider>"
  | some store => .ok (getSnapshot store.get select cache)

/-- Property read `v[k]` through the JavaScript semantics that reading a
property of `null`/`undefined` throws a `TypeError`. -/
def getPropE (v : JSVal) (k : String) : Except String JSVal :=
  match v with
  | .jsnull => .error "TypeError"
  | JSVal.undef => .error "TypeError"
  | _ => .ok (getField v k)

mutual

/-- `_checkEquality` from `src/main.ts` (lines 159-186), the legacy deep
comparator, with its possible exceptions made explicit. `===` coincides with
`objectIs` over this value domain. Faithful quirks: values of equal `typeof`
that are neither arrays nor of type "object" (e.g. two distinct numbers or two
distinct functions) fall through to the final `return true`; `a.prototype` /
`b.prototype` reads the own enumerable `"prototype"` property (plain objects
have none, so both sides are `undefined`), and throws when the receiver is
`null`; `for (const key in a)` recurses into the own enumerable properties. -/
def _checkEquality (a b : JSVal) : Except String Bool :=
  if objectIs a b then .ok true
  else if typeOf a ≠ typeOf b then .ok false
  else if isArrayV a then
    match a, b with
    | .arr _ ea, .arr _ eb =>
      if ea.length ≠ eb.length then .ok false
      else _checkList ea eb
    | _, _ => .ok false
  else if typeOf a = "object" then
    match a with
    | .jsnull => .error "TypeError"
    | .record _ ca fsa =>
      match b with
      | .jsnull => .error "TypeError"
      | _ =>
        if !(objectIs (getField a "prototype") (getField b "prototype")) then .ok false
        else if ca = "Map" then .ok false
        else if ca = "Set" then .ok false
        else if (keysOf a).length ≠ (keysOf b).length then .ok false
        else _checkFields fsa b
    | _ => .ok true
  else .ok true
termination_by sizeOf a

/-- The element loop of `_checkEquality` over two arrays of equal length. -/
def _checkList (xs ys : List JSVal) : Except String Bool :=
  match xs, ys with
  | [], _ => .ok true
  | _ :: _, [] => .ok true
  | x :: xs, y :: ys =>
    match _checkEquality x y with
    | .error e => .error e
    | .ok r => if r then _checkList xs ys else .ok false
termination_by sizeOf xs

/-- The `for (const key in a)` loop of `_checkEquality` over `a`'s own
enumerable properties. -/
def _checkFields (fs : List (String × JSVal)) (b : JSVal) : Except String Bool :=
  match fs with
  | [] => .ok true
  | (k, v) :: rest =>
    match _checkEquality v (getField b k) with
    | .error e => .error e
    | .ok r => if r then _checkFields rest b else .ok false
termination_by sizeOf fs

end

/-- Result of one run of the `useEffect` body of `useStore` in `src/main.ts`
(lines 126-139) with a selector present: the projection held in
`selected.current` afterwards, whether `setBlop` toggled (a re-render was
requested), and the argument pairs the equality function was invoked with. -/
structure EffectResult : Type where
  selected : JSVal
  rerender : Bool
  eqCalls : List (JSVal × JSVal)

/-- The `useEffect` body of `useStore` from `src/main.ts` (lines 126-139), on
the selector path: compute `next = select(value)`, resolve the comparator as
`options?.equals ?? _checkEquality`, and when the comparator reports the pair
unequal store the new projection and request a re-render. A supplied custom
comparator is modelled as a total boolean function. -/
def effectStep (select : JSVal → JSVal) (equalsOpt : Option (JSVal → JSVal → Bool))
    (selectedCur : JSVal) (value : JSVal) : Except String EffectResult :=
  let next := select value
  let eqResult : Except String Bool :=
    match equalsOpt with
    | some e => .ok (e selectedCur next)
    | none => _checkEquality selectedCur next
  match eqResult with
  | .error e => .error e
  | .ok eqv =>
    if !eqv then .ok ⟨next, true, [(selectedCur, next)]⟩
    else .ok ⟨selectedCur, false, [(selectedCur, next)]⟩

/-- `_equals` with the property accesses of the source made explicit as
exception points: the two `.constructor` reads go through `getPropE`-style
null checking. That the null/type guard makes them unreachable is exactly the
content of the totality claim. -/
def _equalsE (a b : JSVal) : Except String Bool :=
  if objectIs a b then .ok true
  else if !(isObjectNonNull a) || !(isObjectNonNull b) then .ok false
  else if isArrayV a then
    match a, b with
    | .arr _ ea, .arr _ eb =>
      if ea.length ≠ eb.length then .ok false
      else .ok ((ea.zip eb).all fun p => objectIs p.1 p.2)
    | _, _ => .ok false
  else
    match a, b with
    | .jsnull, _ => .error "TypeError"
    | JSVal.undef, _ => .error "TypeError"
    | _, .jsnull => .error "TypeError"
    | _, JSVal.undef => .error "TypeError"
    | _, _ =>
      if ctorOf a ≠ ctorOf b then .ok false
      else
        let ka := keysOf a
        let kb := keysOf b
        if ka.length ≠ kb.length then .ok false
        else .ok (ka.all fun k => hasOwnK b k && objectIs (getField a k) (getField b k))

/-- The projection keys of a value are duplicate-free (automatic for arrays;
an assumption for `record` values, where JavaScript objects cannot carry the
same own key twice). -/
abbrev nodupKeys (v : JSVal) : Prop := (keysOf v).Nodup

/-- The characterization of the default equality exactly as the claim words
it: reference equality, or arrays of equal length with pairwise
reference-equal elements, or *plain key-value records* (constructor `Object`)
with the same key set and pairwise reference-equal values. -/
def claimC4Eq (a b : JSVal) : Bool :=
  objectIs a b ||
  (match a, b with
   | .arr _ ea, .arr _ eb =>
     ea.length == eb.length && (ea.zip eb).all fun p => objectIs p.1 p.2
   | .record _ "Object" _, .record _ "Object" _ =>
     (keysOf a).all (fun k => (keysOf b).contains k) &&
     (keysOf b).all (fun k => (keysOf a).contains k) &&
     (keysOf a).all (fun k => objectIs (getField a k) (getField b k))
   | _, _ => false)

/-- The amended characterization: as claimed, except that the record clause
covers *any* two non-array objects with the same constructor — compared by
their own enumerable key sets with pairwise reference-equal values — not only
plain records. (Arrays contribute their index keys as own enumerable keys, and
class instances whose data lives in internal slots contribute none.) -/
def shallowEqSpec (a b : JSVal) : Bool :=
  objectIs a b ||
  (isObjectNonNull a && isObjectNonNull b &&
    (if isArrayV a then
      (match a, b with
       | .arr _ ea, .arr _ eb =>
         ea.length == eb.length && (ea.zip eb).all fun p => objectIs p.1 p.2
       | _, _ => false)
     else
      ctorOf a == ctorOf b &&
      (keysOf a).all (fun k => (keysOf b).contains k) &&
      (keysOf b).all (fun k => (keysOf a).contains k) &&
      (keysOf a).all (fun k => objectIs (getField a k) (getField b k))))

theorem objectIs_refl (v : JSVal) : objectIs v v = true := by
  cases v <;> simp [objectIs]

theorem subRun_length (select : Option (JSVal → JSVal))
    (cache : Option SnapCache) (roots : List JSVal) :
    (subRun select cache roots).length = roots.length := by
  induction roots generalizing cache with
  | nil => rfl
  | cons r rs ih => simp [subRun, ih]

/-- After any selector step the cache is populated and records the delivered
value as its `selected` component. -/
theorem getSnapshot_cache_selected (sel : JSVal → JSVal)
    (cache : Option SnapCache) (r : JSVal) :
    ∃ c, (getSnapshot r (some sel) cache).2.1 = some c ∧
      c.selected = (getSnapshot r (some sel) cache).1 := by
  cases cache with
  | none => exact ⟨⟨r, sel r⟩, rfl, rfl⟩
  | some p =>
    by_cases h1 : objectIs p.root r = true
    · exact ⟨p, by simp [getSnapshot, h1], by simp [getSnapshot, h1]⟩
    · by_cases h2 : _equals (sel r) p.selected = true
      · exact ⟨⟨r, p.selected⟩, by simp [getSnapshot, h1, h2], by simp [getSnapshot, h1, h2]⟩
      · exact ⟨⟨r, sel r⟩, by simp [getSnapshot, h1, h2], by simp [getSnapshot, h1, h2]⟩

/-- Per-step filtering: starting from a cache whose `selected` is the
previously delivered projection, the delivered reference changes only if
`_equals` reported the recomputed projection unequal to it, and if `_equals`
reports equality the previously delivered reference comes back unchanged. -/
theorem getSnapshot_filter (sel : JSVal → JSVal) (p : SnapCache) (r : JSVal) :
    (objectIs (getSnapshot r (some sel) (some p)).1 p.selected = false →
      _equals (sel r) p.selected = false) ∧
    (_equals (sel r) p.selected = true →
      (getSnapshot r (some sel) (some p)).1 = p.selected) := by
  by_cases h1 : objectIs p.root r = true
  · simp [getSnapshot, h1, objectIs_refl]
  · by_cases h2 : _equals (sel r) p.selected = true
    · simp [getSnapshot, h1, h2, objectIs_refl]
    · simp [getSnapshot, h1, h2]

/-- Claim C2: a subscriber that supplies no selector is a direct passthrough — for
every sequence of publications, the value returned after the N-th notification
is exactly the N-th published snapshot by reference, with no projection and no
equality filtering applied (the returned list IS the list of published
snapshots). -/
theorem no_selector_passthrough (cache : Option SnapCache) (roots : List JSVal) :
    subRun none cache roots = roots := by
  induction roots generalizing cache with
  | nil => rfl
  | cons r rs ih => simp [subRun, getSnapshot, ih]

/-- Claim C3: with a selector and a non-empty cache, a current snapshot that is
reference-equal to the cached one is a pure cache hit: the cached projection
is returned, the cache is untouched, and the selector is invoked zero
times. -/
theorem root_reference_cache_hit (sel : JSVal → JSVal) (p : SnapCache)
    (root : JSVal) (h : objectIs p.root root = true) :
    getSnapshot root (some sel) (some p) = (p.selected, some p, 0) := by
  simp [getSnapshot, h]

theorem root_reference_cache_hit_witness :
    objectIs (SnapCache.mk (.num 5) (.num 7)).root (.num 5) = true ∧
      getSnapshot (.num 5) (some fun _ => .num 9)
        (some (SnapCache.mk (.num 5) (.num 7))) =
        (.num 7, some (SnapCache.mk (.num 5) (.num 7)), 0) :=
  ⟨by decide, root_reference_cache_hit (fun _ => .num 9) ⟨.num 5, .num 7⟩ (.num 5) (by decide)⟩

/-- Claim C1: across every sequence of snapshot publications, a selector
subscriber's delivered value changes reference between consecutive
notifications only when `_equals` applied to the newly computed projection and
the previously delivered one reports inequality; when it reports equality the
previously delivered reference is returned unchanged, so `useSyncExternalStore`
sees an unchanged snapshot and signals no re-render. -/
theorem selector_change_requires_inequality (sel : JSVal → JSVal)
    (roots : List JSVal) (cache : Option SnapCache) (i : Nat)
    (h : i + 1 < roots.length) :
    (objectIs ((subRun (some sel) cache roots).getD (i + 1) JSVal.undef)
        ((subRun (some sel) cache roots).getD i JSVal.undef) = false →
      _equals (sel (roots.getD (i + 1) JSVal.undef))
        ((subRun (some sel) cache roots).getD i JSVal.undef) = false) ∧
    (_equals (sel (roots.getD (i + 1) JSVal.undef))
        ((subRun (some sel) cache roots).getD i JSVal.undef) = true →
      (subRun (some sel) cache roots).getD (i + 1) JSVal.undef =
        (subRun (some sel) cache roots).getD i JSVal.undef) := by
  induction roots generalizing cache i with
  | nil => simp at h
  | cons r rs ih =>
    cases i with
    | zero =>
      cases rs with
      | nil => simp at h
      | cons r2 rs2 =>
        obtain ⟨c, hc, hsel⟩ := getSnapshot_cache_selected sel cache r
        simp only [subRun, List.getD_cons_succ, List.getD_cons_zero, hc]
        rw [← hsel]
        exact getSnapshot_filter sel c r2
    | succ j =>
      simp only [subRun, List.getD_cons_succ]
      exact ih _ j (by simpa using h)

theorem selector_change_requires_inequality_witness :
    0 + 1 < [JSVal.num 1, JSVal.num 2].length ∧
    ((objectIs ((subRun (some fun v => v) none [.num 1, .num 2]).getD (0 + 1) JSVal.undef)
        ((subRun (some fun v => v) none [.num 1, .num 2]).getD 0 JSVal.undef) = false →
      _equals ((fun v => v) ([JSVal.num 1, JSVal.num 2].getD (0 + 1) JSVal.undef))
        ((subRun (some fun v => v) none [.num 1, .num 2]).getD 0 JSVal.undef) = false) ∧
     (_equals ((fun v => v) ([JSVal.num 1, JSVal.num 2].getD (0 + 1) JSVal.undef))
        ((subRun (some fun v => v) none [.num 1, .num 2]).getD 0 JSVal.undef) = true →
      (subRun (some fun v => v) none [.num 1, .num 2]).getD (0 + 1) JSVal.undef =
        (subRun (some fun v => v) none [.num 1, .num 2]).getD 0 JSVal.undef)) :=
  ⟨by decide,
   selector_change_requires_inequality (fun v => v) [.num 1, .num 2] none 0 (by decide)⟩

/-- Claim C5: with a custom equality function supplied, that function fully replaces
the default comparator — the effect's outcome is a closed form mentioning only
the supplied function — and it is invoked exactly once, with the previously
delivered projection as first argument and the newly computed projection as
second. -/
theorem custom_equals_replaces_default (e : JSVal → JSVal → Bool)
    (sel : JSVal → JSVal) (prevDelivered value : JSVal) :
    effectStep sel (some e) prevDelivered value =
      .ok ⟨if e prevDelivered (sel value) then prevDelivered else sel value,
           !(e prevDelivered (sel value)),
           [(prevDelivered, sel value)]⟩ := by
  cases he : e prevDelivered (sel value) <;> simp [effectStep, he]

/-- Claim C6: invoking the hook with the empty context marker (no enclosing
provider) yields the documented error synchronously on every call — the
outcome is the same for every selector and every cache state, never a default
value and never a cached prior success. -/
theorem outside_provider_throws (select : Option (JSVal → JSVal))
    (cache : Option SnapCache) :
    useStoreStator none select cache =
      .error "Component must be wrapped with a store <Provider>" := rfl

/-- Claim C7: a provider re-evaluation commits the new snapshot to the store's
`value` field strictly before notifying, so the store the listeners run
against already holds the new snapshot and every listener that reads the
snapshot during notification observes exactly the snapshot whose publication
triggered it — never an older one. -/
theorem snapshot_committed_before_notify (s : Store V) (v : V) (p : Nat × V)
    (h : p ∈ (providerReevaluate s v).2) :
    (providerReevaluate s v).1.value = v ∧ p.2 = v := by
  refine ⟨rfl, ?_⟩
  simp only [providerReevaluate, Store.notifyReads, Store.update, Store.get,
    List.mem_map] at h
  obtain ⟨l, _, rfl⟩ := h
  rfl

theorem snapshot_committed_before_notify_witness :
    (providerReevaluate (Store.mk 0 [5]) 1).1.value = 1 ∧ (5, 1).2 = 1 :=
  snapshot_committed_before_notify (Store.mk 0 [5]) 1 (5, 1) (by decide)

theorem unsubscribe_idem (s : Store V) (l : Nat) :
    (s.unsubscribe l).unsubscribe l = s.unsubscribe l := by
  simp [Store.unsubscribe, List.filter_filter]

/-- Claim C8: listener registration and deregistration are idempotent — subscribing
a listener twice leaves the same listener set as subscribing it once, and
running the returned unsubscribe closure any positive number of times
(including after the listener is already removed) leaves the set identical to
running it once. Both operations are total functions: neither can throw. -/
theorem subscribe_unsubscribe_idempotent (s : Store V) (l : Nat) :
    (s.subscribe l).subscribe l = s.subscribe l ∧
    ∀ n : Nat, (fun t : Store V => t.unsubscribe l)^[n + 1] s = s.unsubscribe l := by
  constructor
  · by_cases h : l ∈ s.listeners
    · simp [Store.subscribe, h]
    · simp [Store.subscribe, h]
  · intro n
    induction n with
    | zero => simp
    | succ m ih =>
      rw [Function.iterate_succ_apply', ih]
      exact unsubscribe_idem s l

/-- Claim C10: two distinct instances of the same class whose data is not stored in
own enumerable properties (any two `Map`s, `Set`s or `Date`s) compare equal
under `_equals` regardless of their contents: after the constructor check only
own enumerable keys are compared, of which such instances have none. -/
theorem classes_without_own_keys_equal (i j : Nat) (c : String) (h : i ≠ j) :
    _equals (.record i c []) (.record j c []) = true := by
  simp [_equals, objectIs, isObjectNonNull, isArrayV, ctorOf, keysOf, fieldsOf, h]

theorem classes_without_own_keys_equal_witness :
    0 ≠ 1 ∧ _equals (.record 0 "Map" []) (.record 1 "Map" []) = true :=
  ⟨by decide, classes_without_own_keys_equal 0 1 "Map" (by decide)⟩

theorem nodup_subset_of_length_subset {ka kb : List String}
    (hka : ka.Nodup) (hkb : kb.Nodup) (hlen : ka.length = kb.length)
    (hsub : ∀ k ∈ ka, k ∈ kb) : ∀ k ∈ kb, k ∈ ka := by
  have h1 : ka.toFinset ⊆ kb.toFinset := by
    intro x hx
    rw [List.mem_toFinset] at hx ⊢
    exact hsub x hx
  have h2 : ka.toFinset = kb.toFinset := by
    apply Finset.eq_of_subset_of_card_le h1
    rw [List.toFinset_card_of_nodup hka, List.toFinset_card_of_nodup hkb, hlen]
  intro k hk
  rw [← List.mem_toFinset, ← h2, List.mem_toFinset] at hk
  exact hk

theorem nodup_length_of_bisubset {ka kb : List String}
    (hka : ka.Nodup) (hkb : kb.Nodup)
    (h1 : ∀ k ∈ ka, k ∈ kb) (h2 : ∀ k ∈ kb, k ∈ ka) : ka.length = kb.length := by
  have heq : ka.toFinset = kb.toFinset := by
    apply Finset.Subset.antisymm <;> intro x hx <;> rw [List.mem_toFinset] at hx ⊢
    · exact h1 x hx
    · exact h2 x hx
  calc ka.length = ka.toFinset.card := (List.toFinset_card_of_nodup hka).symm
    _ = kb.toFinset.card := by rw [heq]
    _ = kb.length := List.toFinset_card_of_nodup hkb

theorem char_arr_arr (i1 i2 : Nat) (e1 e2 : List JSVal) (h : i1 ≠ i2) :
    _equals (.arr i1 e1) (.arr i2 e2) = shallowEqSpec (.arr i1 e1) (.arr i2 e2) := by
  by_cases hl : e1.length = e2.length
  · simp [_equals, shallowEqSpec, objectIs, isObjectNonNull, isArrayV,
      beq_false_of_ne h, hl]
  · simp [_equals, shallowEqSpec, objectIs, isObjectNonNull, isArrayV,
      beq_false_of_ne h, hl, beq_false_of_ne hl]

theorem char_nonarray (i1 : Nat) (c1 : String) (fs1 : List (String × JSVal))
    (b : JSVal) (hb0 : objectIs (.record i1 c1 fs1) b = false)
    (hobj : isObjectNonNull b = true)
    (ha : (keysOf (.record i1 c1 fs1)).Nodup) (hbn : (keysOf b).Nodup) :
    _equals (.record i1 c1 fs1) b = shallowEqSpec (.record i1 c1 fs1) b := by
  have hA : isObjectNonNull (.record i1 c1 fs1) = true := rfl
  have hArr : isArrayV (.record i1 c1 fs1) = false := rfl
  by_cases hc : ctorOf (.record i1 c1 fs1) = ctorOf b
  · by_cases hlen : (keysOf (.record i1 c1 fs1)).length = (keysOf b).length
    · simp only [_equals, shallowEqSpec, hb0, hobj, hA, hArr, hc, hlen, hasOwnK]
      rw [Bool.eq_iff_iff]
      simp only [Bool.false_eq_true, if_false, Bool.not_true,
        Bool.not_false, Bool.false_or, Bool.true_and, Bool.and_self, ne_eq,
        not_true_eq_false, if_true, ite_true, beq_self_eq_true,
        List.all_eq_true, Bool.and_eq_true, List.contains, List.elem_iff,
        decide_eq_true_eq]
      constructor
      · intro h
        exact ⟨⟨fun k hk => (h k hk).1,
          nodup_subset_of_length_subset ha hbn hlen fun k hk => (h k hk).1⟩,
          fun k hk => (h k hk).2⟩
      · rintro ⟨⟨hsub, _⟩, hf⟩ k hk
        exact ⟨hsub k hk, hf k hk⟩
    · simp [_equals, shallowEqSpec, hb0, hobj, hA, hArr, hc, hlen, hasOwnK]
      intro hsub1 hsub2
      exact absurd (nodup_length_of_bisubset ha hbn hsub1 hsub2) hlen
  · simp [_equals, shallowEqSpec, hb0, hobj, hA, hArr, hc, beq_false_of_ne hc]

/-- Claim C4, amended: `_equals` returns true iff the two values are
reference-equal, or both are arrays of equal length with pairwise
reference-equal elements, or the first is a non-array object and both have the
same constructor with coinciding own enumerable key sets and pairwise
reference-equal values — the claim's "plain key-value records" clause widened
to any same-constructor objects (hence the `Map`/`Set`/`Date` behaviour of
C10). Nested objects are still never compared structurally. Assumes the value
well-formedness that JavaScript guarantees: own keys are duplicate-free. -/
theorem shallow_default_characterization (a b : JSVal)
    (ha : nodupKeys a) (hb : nodupKeys b) :
    _equals a b = shallowEqSpec a b := by
  have hha : (keysOf a).Nodup := ha
  have hhb : (keysOf b).Nodup := hb
  by_cases h0 : objectIs a b = true
  · simp [_equals, shallowEqSpec, h0]
  · have h0' : objectIs a b = false := by simpa using h0
    cases a <;> cases b <;>
      first
      | exact char_arr_arr _ _ _ _ (by simpa [objectIs] using h0')
      | exact char_nonarray _ _ _ _ h0' rfl hha hhb
      | simp_all [_equals, shallowEqSpec, objectIs, isObjectNonNull, isArrayV]

theorem shallow_default_characterization_witness :
    nodupKeys (.record 0 "Object" [("x", .num 1)]) ∧
    nodupKeys (.record 1 "Object" [("x", .num 2)]) ∧
    _equals (.record 0 "Object" [("x", .num 1)]) (.record 1 "Object" [("x", .num 2)]) =
      shallowEqSpec (.record 0 "Object" [("x", .num 1)]) (.record 1 "Object" [("x", .num 2)]) :=
  ⟨by decide, by decide,
   shallow_default_characterization _ _ (by decide) (by decide)⟩

/-- Claim C4, counterexample: the claim's "iff" fails as stated — two distinct
empty `Map` instances are neither reference-equal, nor arrays, nor plain
key-value records, yet `_equals` reports them equal. -/
theorem shallow_default_claim_counterexample :
    _equals (.record 0 "Map" []) (.record 1 "Map" []) = true ∧
    claimC4Eq (.record 0 "Map" []) (.record 1 "Map" []) = false := by
  constructor <;> decide

/-- Claim C9, counterexample: the legacy `main.ts` comparator `_checkEquality` is
not total — comparing `null` against a non-null object reaches the
`a.prototype` / `b.prototype` read and throws a `TypeError`. -/
theorem checkEquality_throws_on_null :
    _checkEquality .jsnull (.record 0 "Object" []) = .error "TypeError" := by
  simp [_checkEquality, objectIs, typeOf, isArrayV]

/-- Claim C9, amended: the default comparator of the current implementation,
`_equals` from `src/src/stator.ts`, is total — for every pair of values,
including `null`, `undefined`, primitives, functions, arrays and objects, it
terminates and produces a boolean, and the exception-instrumented run
`_equalsE` never reaches a throwing property access. -/
theorem equals_total_no_throw (a b : JSVal) :
    _equalsE a b = .ok (_equals a b) := by
  by_cases h0 : objectIs a b = true
  · simp [_equalsE, _equals, h0]
  · cases a <;> cases b <;>
      simp_all [_equalsE, _equals, objectIs, isObjectNonNull, isArrayV] <;>
      split_ifs <;> simp_all

end Stator
